import Mathlib

/-!
Shallow embedding of `src/app.py` (AI Conversation Q&A Splitter & Summarizer).

The program has two pure helpers, `split_qa` and `summarize_with_azure`, plus
Streamlit UI glue.  We embed:

* Python string primitives used by the helpers (`endswith`, the `in`
  containment test, `"\n".join(...)`, `" ".join(...)`, truthiness of `str.strip()`)
  as executable functions on `List Char` / `String`;
* `split_qa` as the accumulating loop over the input lines (verbatim
  translation of the `for` loop at src/app.py lines 33-40);
* `summarize_with_azure`, with the remote Azure service modelled by a
  `ServiceBehavior` value describing what the external calls do: raise during
  client construction (`get_language_client` / `TextAnalyticsClient(...)`,
  line 47, outside the `try`), raise during `begin_abstract_summary` or
  `poller.result()` (inside the `try`), or return a list of document results.
  A Python exception escaping the function is `Except.error`;
* the UI gating (lines 77-118) as a function from session state to the
  rendered outcome.
-/

/-- `leadsWith sub s` is true when the character list `sub` occurs at the
start of `s` (auxiliary for the Python string tests below). -/
def leadsWith : List Char → List Char → Bool
  | [], _ => true
  | _ :: _, [] => false
  | a :: xs, b :: ys => a == b && leadsWith xs ys

/-- `occursIn sub s` is true when `sub` occurs contiguously somewhere in `s`:
embedding of the Python containment test `sub in s`. -/
def occursIn (sub : List Char) : List Char → Bool
  | [] => leadsWith sub []
  | c :: rest => leadsWith sub (c :: rest) || occursIn sub rest

/-- `trailsWith sub s` is true when `sub` occurs at the end of `s`:
embedding of Python `s.endswith(sub)`. -/
def trailsWith (sub s : List Char) : Bool :=
  leadsWith sub.reverse s.reverse

/-- The per-line question test of `split_qa` (src/app.py line 35):
`line.endswith("?") or "User A:" in line or "Question:" in line`. -/
def isQuestion (line : String) : Bool :=
  trailsWith "?".data line.data ||
  occursIn "User A:".data line.data ||
  occursIn "Question:".data line.data

/-- The `for` loop of `split_qa` (src/app.py lines 33-38): each line is
appended to the `questions` accumulator when `isQuestion` holds, otherwise to
the `answers` accumulator. -/
def splitQAloop : List String → List String → List String → List String × List String
  | [], questions, answers => (questions, answers)
  | line :: rest, questions, answers =>
    if isQuestion line then splitQAloop rest (questions ++ [line]) answers
    else splitQAloop rest questions (answers ++ [line])

/-- Embedding of Python `"\n".join(lines)`. -/
def joinNL : List String → String
  | [] => ""
  | [s] => s
  | s :: rest => s ++ "\n" ++ joinNL rest

/-- Embedding of Python `" ".join(lines)`. -/
def joinSP : List String → String
  | [] => ""
  | [s] => s
  | s :: rest => s ++ " " ++ joinSP rest

/-- `split_qa` (src/app.py lines 24-40): run the classification loop on the
input lines, then return the newline-joins of the two accumulators. -/
def split_qa (lines : List String) : String × String :=
  let p := splitQAloop lines [] []
  (joinNL p.1, joinNL p.2)

/-- One document result returned by the Azure summarization call: the
`doc.is_error` flag, the `doc.error.message` text (meaningful only when the
flag is set) and the `summary.text` fragments of `doc.summaries`. -/
structure DocResult where
  isError : Bool
  errorMessage : String
  summaries : List String
deriving DecidableEq, Repr

/-- The `for doc in result` loop of `summarize_with_azure` (src/app.py lines
54-62), with `summary_out` as the accumulator: a non-error document appends
all its summary fragments; an error document returns
`"Azure Service Error: " ++ message` at once.  After the loop the fragments
are space-joined, or the fixed placeholder is returned when none were
collected. -/
def processDocs : List String → List DocResult → String
  | summary_out, [] =>
    if summary_out.isEmpty then "AI could not generate a summary."
    else joinSP summary_out
  | summary_out, doc :: rest =>
    if !doc.isError then processDocs (summary_out ++ doc.summaries) rest
    else "Azure Service Error: " ++ doc.errorMessage

/-- What the external Azure SDK does on one invocation, as observed by
`summarize_with_azure`:

* `constructRaises m` — `get_language_client()` (the
  `TextAnalyticsClient` / `AzureKeyCredential` construction at src/app.py
  lines 13-17, called at line 47, *outside* the `try`) raises an exception
  whose string form is `m`;
* `requestRaises m` — construction succeeds and
  `client.begin_abstract_summary(...)` or `poller.result()` (lines 51-52,
  inside the `try`) raises an exception whose string form is `m`;
* `returns docs` — the remote call completes and yields `docs`. -/
inductive ServiceBehavior where
  | constructRaises (msg : String)
  | requestRaises (msg : String)
  | returns (docs : List DocResult)
deriving DecidableEq, Repr

/-- Truthiness of Python `not text.strip()`: true exactly when every
character of `text` is whitespace (in particular for the empty string). -/
def strBlank (s : String) : Bool :=
  s.data.all fun c => c.isWhitespace

/-- `summarize_with_azure` (src/app.py lines 42-64).  The external service is
a `ServiceBehavior` parameter.  `Except.ok s` means the function returns the
string `s`; `Except.error m` means a Python exception with message `m`
escapes the function.  Note the order in the source: the blank-text check
comes first, then `get_language_client()` *outside* the `try` block, then the
`try` covering the remote call and the result loop. -/
def summarize_with_azure (behaviour : ServiceBehavior)
    (text_to_summarize : String) : Except String String :=
  if strBlank text_to_summarize then
    Except.ok "No answer text provided to summarize."
  else
    match behaviour with
    | ServiceBehavior.constructRaises m => Except.error m
    | ServiceBehavior.requestRaises m => Except.ok ("Logic Error: " ++ m)
    | ServiceBehavior.returns docs => Except.ok (processDocs [] docs)

/-- Session state of the Streamlit page: `uploadedLines` is `some ls` when a
.docx file has been uploaded (with `ls` the non-empty trimmed paragraphs
`read_docx` extracts from it) and `none` when no file is supplied;
`azureKey` / `azureEndpoint` are the two sidebar credential fields (Python
truthiness of a string is non-emptiness); `analyzePressed` records whether
the user clicked the "Analyze & Summarize Answers" button. -/
structure UIState where
  uploadedLines : Option (List String)
  azureKey : String
  azureEndpoint : String
  analyzePressed : Bool

/-- The user-visible outcome of one script run (src/app.py lines 77-118). -/
inductive Outcome where
  | pipelineRan (questions answers summary : String)
  | criticalError (msg : String)
  | emptyFile
  | idle
  | missingCreds
  | missingDoc
deriving DecidableEq, Repr

/-- The top-level control flow of src/app.py lines 77-118:
`if uploaded_file and AZURE_KEY and AZURE_ENDPOINT:` guards the analysis
block; inside it the button press guards the pipeline, and an empty line list
yields the empty-file error; otherwise the whole pipeline (split, summarize,
render) runs under a `try` whose handler shows `"Critical Error: ..."`.
The `else` branch shows the missing-credentials warning when either
credential is empty, and the upload prompt otherwise. -/
def app_main (behaviour : ServiceBehavior) (st : UIState) : Outcome :=
  match st.uploadedLines with
  | some lines =>
    if st.azureKey ≠ "" ∧ st.azureEndpoint ≠ "" then
      if st.analyzePressed then
        if lines.isEmpty then Outcome.emptyFile
        else
          let qa := split_qa lines
          match summarize_with_azure behaviour qa.2 with
          | Except.ok summary => Outcome.pipelineRan qa.1 qa.2 summary
          | Except.error e => Outcome.criticalError ("Critical Error: " ++ e)
      else Outcome.idle
    else Outcome.missingCreds
  | none =>
    if st.azureKey ≠ "" ∧ st.azureEndpoint ≠ "" then Outcome.missingDoc
    else Outcome.missingCreds

/-- The classification rule exactly as the spec words it: the line ends with
the character `?`, or contains the literal substring `User A:`, or contains
the literal substring `Question:`.  Used to compare the source's `isQuestion`
against the spec. -/
def SpecIsQuestion (line : String) : Prop :=
  (∃ t, line.data = t ++ ['?']) ∨
  (∃ p t, line.data = p ++ "User A:".data ++ t) ∨
  (∃ p t, line.data = p ++ "Question:".data ++ t)

/-- Splitting a string at newline characters (the inverse reading of the
newline-join used by the implicit re-classification claim): accumulator-based
scan, so that `splitLines` agrees with Python `s.split("\n")`. -/
def splitNLAux : List Char → List Char → List String
  | acc, [] => [String.mk acc.reverse]
  | acc, c :: rest =>
    if c == '\n' then String.mk acc.reverse :: splitNLAux [] rest
    else splitNLAux (c :: acc) rest

/-- `splitLines s` is Python `s.split("\n")`. -/
def splitLines (s : String) : List String :=
  splitNLAux [] s.data

/-- A sample remote response reporting a document-level error. -/
def docsErrSample : List DocResult :=
  [{ isError := true, errorMessage := "rate limited", summaries := [] }]

/-- A sample successful remote response with three summary fragments. -/
def docsOkSample : List DocResult :=
  [{ isError := false, errorMessage := "", summaries := ["s1", "s2"] },
   { isError := false, errorMessage := "", summaries := ["s3"] }]

/-! ### String-primitive lemmas -/

theorem leadsWith_iff (sub s : List Char) :
    leadsWith sub s = true ↔ ∃ t, s = sub ++ t := by
  induction sub generalizing s with
  | nil => simp [leadsWith]
  | cons a xs ih =>
    cases s with
    | nil => simp [leadsWith]
    | cons b ys =>
      simp only [leadsWith, Bool.and_eq_true, beq_iff_eq, ih]
      constructor
      · rintro ⟨rfl, t, rfl⟩
        exact ⟨t, rfl⟩
      · rintro ⟨t, h⟩
        cases h
        exact ⟨rfl, t, rfl⟩

theorem occursIn_iff (sub s : List Char) :
    occursIn sub s = true ↔ ∃ p t, s = p ++ sub ++ t := by
  induction s with
  | nil =>
    constructor
    · intro h
      rcases (leadsWith_iff sub []).mp h with ⟨t, ht⟩
      exact ⟨[], t, ht⟩
    · rintro ⟨p, t, ht⟩
      apply (leadsWith_iff sub []).mpr
      have h0 : (p ++ sub) ++ t = [] := ht.symm
      rcases List.append_eq_nil.mp h0 with ⟨h1, h2⟩
      rcases List.append_eq_nil.mp h1 with ⟨h3, h4⟩
      subst h2; subst h3; subst h4
      exact ⟨[], rfl⟩
  | cons c rest ih =>
    simp only [occursIn, Bool.or_eq_true, leadsWith_iff, ih]
    constructor
    · rintro (⟨t, h⟩ | ⟨p, t, h⟩)
      · exact ⟨[], t, by simpa using h⟩
      · exact ⟨c :: p, t, by simp [h]⟩
    · rintro ⟨p, t, h⟩
      cases p with
      | nil => exact Or.inl ⟨t, by simpa using h⟩
      | cons x p =>
        simp only [List.cons_append, List.cons.injEq] at h
        exact Or.inr ⟨p, t, h.2⟩

theorem trailsWith_iff (sub s : List Char) :
    trailsWith sub s = true ↔ ∃ t, s = t ++ sub := by
  simp only [trailsWith, leadsWith_iff]
  constructor
  · rintro ⟨t, h⟩
    refine ⟨t.reverse, ?_⟩
    have := congrArg List.reverse h
    simpa using this
  · rintro ⟨t, rfl⟩
    exact ⟨t.reverse, by simp⟩

theorem isQuestion_iff_spec (line : String) :
    isQuestion line = true ↔ SpecIsQuestion line := by
  simp only [isQuestion, SpecIsQuestion, Bool.or_eq_true, trailsWith_iff,
    occursIn_iff]
  exact or_assoc

/-! ### `split_qa` loop lemmas -/

theorem splitQAloop_eq_filter (lines qs ans : List String) :
    splitQAloop lines qs ans =
      (qs ++ lines.filter isQuestion,
       ans ++ lines.filter fun l => !isQuestion l) := by
  induction lines generalizing qs ans with
  | nil => simp [splitQAloop]
  | cons l rest ih =>
    by_cases h : isQuestion l = true
    · simp [splitQAloop, h, ih, List.filter_cons]
    · simp only [Bool.not_eq_true] at h
      simp [splitQAloop, h, ih, List.filter_cons]

theorem filter_length_split (p : String → Bool) (l : List String) :
    (l.filter p).length + (l.filter fun a => !p a).length = l.length := by
  induction l with
  | nil => simp
  | cons a l ih =>
    by_cases h : p a = true
    · simp [List.filter_cons, h]
      omega
    · simp only [Bool.not_eq_true] at h
      simp [List.filter_cons, h]
      omega

theorem filter_count_split (p : String → Bool) (l : List String) (x : String) :
    (l.filter p).count x + (l.filter fun a => !p a).count x = l.count x := by
  induction l with
  | nil => simp
  | cons a l ih =>
    by_cases h : p a = true
    · simp [List.filter_cons, h, List.count_cons]
      omega
    · simp only [Bool.not_eq_true] at h
      simp [List.filter_cons, h, List.count_cons]
      omega

/-- C1: every input line is classified independently of the others — the loop
agrees with filtering by the per-line test, keeping lines verbatim and in
order — and the per-line test `isQuestion` holds exactly when the line ends
with the character `?`, or contains the literal substring `User A:`, or
contains the literal substring `Question:` (case-sensitively), as
`SpecIsQuestion` states. -/
theorem C1_split_qa_classifies_per_line :
    (∀ lines, splitQAloop lines [] [] =
      (lines.filter isQuestion, lines.filter fun l => !isQuestion l)) ∧
    ∀ line, isQuestion line = true ↔ SpecIsQuestion line := by
  constructor
  · intro lines
    simp [splitQAloop_eq_filter]
  · exact isQuestion_iff_spec

/-- C2: the classification loop partitions the input lines: the two outputs
are order-preserving subsequences of the input, every line occurs in the two
outputs jointly exactly as often as in the input, and the lengths add up. -/
theorem C2_split_qa_partition (lines : List String) :
    (splitQAloop lines [] []).1.length + (splitQAloop lines [] []).2.length
        = lines.length ∧
    List.Sublist (splitQAloop lines [] []).1 lines ∧
    List.Sublist (splitQAloop lines [] []).2 lines ∧
    ∀ l : String,
      (splitQAloop lines [] []).1.count l + (splitQAloop lines [] []).2.count l
        = lines.count l := by
  simp only [splitQAloop_eq_filter, List.nil_append]
  exact ⟨filter_length_split _ _, List.filter_sublist _, List.filter_sublist _,
    fun l => filter_count_split _ _ l⟩

/-- C7: `split_qa` on the empty sequence returns two empty strings, and in
general each component is the newline-join of its classified lines in input
order. -/
theorem C7_split_qa_empty_and_join :
    split_qa [] = ("", "") ∧
    ∀ lines, split_qa lines =
      (joinNL (lines.filter isQuestion),
       joinNL (lines.filter fun l => !isQuestion l)) := by
  refine ⟨rfl, fun lines => ?_⟩
  simp [split_qa, splitQAloop_eq_filter]

/-! ### Summarization lemmas -/

theorem processDocs_error (acc : List String) (docs : List DocResult)
    (h : ∃ d ∈ docs, d.isError = true) :
    ∃ d ∈ docs, d.isError = true ∧
      processDocs acc docs = "Azure Service Error: " ++ d.errorMessage := by
  induction docs generalizing acc with
  | nil => simp at h
  | cons d rest ih =>
    by_cases hd : d.isError = true
    · exact ⟨d, by simp, hd, by simp [processDocs, hd]⟩
    · simp only [Bool.not_eq_true] at hd
      rcases h with ⟨e, he, herr⟩
      rcases List.mem_cons.mp he with rfl | hmem
      · exact absurd herr (by simp [hd])
      · rcases ih (acc ++ d.summaries) ⟨e, hmem, herr⟩ with ⟨f, hf, hferr, heq⟩
        exact ⟨f, List.mem_cons_of_mem _ hf, hferr, by simp [processDocs, hd, heq]⟩

theorem processDocs_ok (acc : List String) (docs : List DocResult)
    (h : ∀ d ∈ docs, d.isError = false) :
    processDocs acc docs =
      if (acc ++ (docs.map DocResult.summaries).flatten).isEmpty then
        "AI could not generate a summary."
      else joinSP (acc ++ (docs.map DocResult.summaries).flatten) := by
  induction docs generalizing acc with
  | nil => simp [processDocs]
  | cons d rest ih =>
    have hd : d.isError = false := h d (by simp)
    have hrest : ∀ e ∈ rest, e.isError = false := fun e he => h e (by simp [he])
    simp [processDocs, hd, ih _ hrest, List.append_assoc]

/-- C4: on empty or whitespace-only input, `summarize_with_azure` returns the
fixed placeholder, whatever the external service would do — in particular
even when client construction would raise, showing no client is built and no
remote call is made. -/
theorem C4_blank_input_placeholder (behaviour : ServiceBehavior)
    (text : String) (h : strBlank text = true) :
    summarize_with_azure behaviour text =
      Except.ok "No answer text provided to summarize." := by
  simp [summarize_with_azure, h]

theorem C4_blank_input_placeholder_witness :
    summarize_with_azure (ServiceBehavior.constructRaises "boom") "  " =
      Except.ok "No answer text provided to summarize." :=
  C4_blank_input_placeholder (ServiceBehavior.constructRaises "boom") "  "
    (by decide)

/-- C5: on non-blank input, when the remote response reports a document-level
error, the result is the string `"Azure Service Error: "` followed by that
document's error message — the error-identifying prefix plus the literal
service message — returned normally, not raised. -/
theorem C5_service_error_surfaced (text : String) (docs : List DocResult)
    (h1 : strBlank text = false) (h2 : ∃ d ∈ docs, d.isError = true) :
    ∃ d ∈ docs, d.isError = true ∧
      summarize_with_azure (ServiceBehavior.returns docs) text =
        Except.ok ("Azure Service Error: " ++ d.errorMessage) := by
  rcases processDocs_error [] docs h2 with ⟨d, hmem, herr, heq⟩
  exact ⟨d, hmem, herr, by simp [summarize_with_azure, h1, heq]⟩

theorem C5_service_error_surfaced_witness :
    ∃ d ∈ docsErrSample, d.isError = true ∧
      summarize_with_azure (ServiceBehavior.returns docsErrSample) "hello" =
        Except.ok ("Azure Service Error: " ++ d.errorMessage) :=
  C5_service_error_surfaced "hello" docsErrSample (by decide)
    ⟨{ isError := true, errorMessage := "rate limited", summaries := [] },
      by simp [docsErrSample], rfl⟩

/-- C6: on non-blank input, when no document in the remote response is an
error, the result is the space-join of all summary fragments in order, or the
fixed `"AI could not generate a summary."` placeholder when there are no
fragments at all. -/
theorem C6_success_join (text : String) (docs : List DocResult)
    (h1 : strBlank text = false) (h2 : ∀ d ∈ docs, d.isError = false) :
    summarize_with_azure (ServiceBehavior.returns docs) text =
      Except.ok
        (if ((docs.map DocResult.summaries).flatten).isEmpty then
          "AI could not generate a summary."
         else joinSP ((docs.map DocResult.summaries).flatten)) := by
  have := processDocs_ok [] docs h2
  simp only [List.nil_append] at this
  simp [summarize_with_azure, h1, this]

theorem C6_success_join_witness :
    summarize_with_azure (ServiceBehavior.returns docsOkSample) "hello" =
      Except.ok
        (if ((docsOkSample.map DocResult.summaries).flatten).isEmpty then
          "AI could not generate a summary."
         else joinSP ((docsOkSample.map DocResult.summaries).flatten)) :=
  C6_success_join "hello" docsOkSample (by decide) (by decide)

/-- C3 is refuted as stated: an exception raised while constructing the
client (`get_language_client()` at src/app.py line 47 sits *outside* the
`try` block) escapes `summarize_with_azure` when the input is non-blank. -/
theorem C3_counterexample :
    summarize_with_azure (ServiceBehavior.constructRaises "invalid endpoint")
        "hello" =
      Except.error "invalid endpoint" := by
  simp [summarize_with_azure, show strBlank "hello" = false from by decide]

/-- C3 amended: for every service behaviour in which client construction does
not raise, `summarize_with_azure` returns a displayable string on every
input; and when construction does raise on non-blank input, that exception
propagates unchanged past the function's boundary. -/
theorem C3_no_raise_except_construction (behaviour : ServiceBehavior)
    (text : String)
    (hb : ∀ m, behaviour ≠ ServiceBehavior.constructRaises m) :
    ∃ s, summarize_with_azure behaviour text = Except.ok s := by
  by_cases hblank : strBlank text = true
  · exact ⟨"No answer text provided to summarize.",
      by simp [summarize_with_azure, hblank]⟩
  · simp only [Bool.not_eq_true] at hblank
    cases behaviour with
    | constructRaises m => exact absurd rfl (hb m)
    | requestRaises m =>
      exact ⟨"Logic Error: " ++ m, by simp [summarize_with_azure, hblank]⟩
    | returns docs =>
      exact ⟨processDocs [] docs, by simp [summarize_with_azure, hblank]⟩

theorem C3_no_raise_except_construction_witness :
    ∃ s, summarize_with_azure (ServiceBehavior.requestRaises "timeout")
        "hello" = Except.ok s :=
  C3_no_raise_except_construction (ServiceBehavior.requestRaises "timeout")
    "hello" (fun _ h => ServiceBehavior.noConfusion h)

/-- C10: on empty or whitespace-only input, the result of
`summarize_with_azure` does not depend on the credentials: any
credential-indexed family of service behaviours gives the same output for any
two credential pairs. -/
theorem C10_blank_input_credential_independent
    (remote : String → String → ServiceBehavior)
    (key1 endpoint1 key2 endpoint2 text : String)
    (h : strBlank text = true) :
    summarize_with_azure (remote key1 endpoint1) text =
      summarize_with_azure (remote key2 endpoint2) text := by
  simp [summarize_with_azure, h]

theorem C10_blank_input_credential_independent_witness :
    summarize_with_azure
        ((fun k e => ServiceBehavior.constructRaises (k ++ e)) "key1" "ep1")
        " " =
      summarize_with_azure
        ((fun k e => ServiceBehavior.constructRaises (k ++ e)) "key2" "ep2")
        " " :=
  C10_blank_input_credential_independent
    (fun k e => ServiceBehavior.constructRaises (k ++ e))
    "key1" "ep1" "key2" "ep2" " " (by decide)

/-- C8: the analysis pipeline (successful run, critical-error fallback, or
empty-file check) is reached only when a file is uploaded, both credential
fields are non-empty, and the analyze button was pressed; missing credentials
and missing document each produce their own distinct advisory outcome,
characterised exactly. -/
theorem C8_gating (behaviour : ServiceBehavior) (st : UIState) :
    ((∃ q a s, app_main behaviour st = Outcome.pipelineRan q a s) ∨
     (∃ m, app_main behaviour st = Outcome.criticalError m) ∨
     app_main behaviour st = Outcome.emptyFile →
      st.uploadedLines.isSome = true ∧ st.azureKey ≠ "" ∧
        st.azureEndpoint ≠ "" ∧ st.analyzePressed = true) ∧
    (app_main behaviour st = Outcome.missingCreds ↔
      ¬(st.azureKey ≠ "" ∧ st.azureEndpoint ≠ "")) ∧
    (app_main behaviour st = Outcome.missingDoc ↔
      (st.azureKey ≠ "" ∧ st.azureEndpoint ≠ "") ∧ st.uploadedLines = none) ∧
    Outcome.missingCreds ≠ Outcome.missingDoc := by
  obtain ⟨up, key, ep, pressed⟩ := st
  refine ⟨?_, ?_, ?_, by simp⟩ <;>
    cases up with
    | none =>
      by_cases hc : key ≠ "" ∧ ep ≠ "" <;>
        simp [app_main, hc]
    | some lines =>
      by_cases hc : key ≠ "" ∧ ep ≠ "" <;>
        cases pressed <;>
          rcases hl : lines.isEmpty <;>
            rcases hs : summarize_with_azure behaviour
                (split_qa lines).2 <;>
              simp [app_main, hc, hl, hs]

/-! ### Newline-join / split round trip -/

theorem splitNLAux_no_newline (cs : List Char) (acc : List Char)
    (h : ('\n' : Char) ∉ cs) :
    splitNLAux acc cs = [String.mk (acc.reverse ++ cs)] := by
  induction cs generalizing acc with
  | nil => simp [splitNLAux]
  | cons c rest ih =>
    have hc : c ≠ '\n' := fun he => h (he ▸ List.mem_cons_self c rest)
    have hc2 : (c == '\n') = false := by simp [hc]
    have hrest : ('\n' : Char) ∉ rest := fun he => h (List.mem_cons_of_mem c he)
    simp [splitNLAux, hc2, ih _ hrest]

theorem splitNLAux_break (cs rest : List Char) (acc : List Char)
    (h : ('\n' : Char) ∉ cs) :
    splitNLAux acc (cs ++ '\n' :: rest) =
      String.mk (acc.reverse ++ cs) :: splitNLAux [] rest := by
  induction cs generalizing acc with
  | nil => simp [splitNLAux]
  | cons c cs ih =>
    have hc : c ≠ '\n' := fun he => h (he ▸ List.mem_cons_self c cs)
    have hc2 : (c == '\n') = false := by simp [hc]
    have hrest : ('\n' : Char) ∉ cs := fun he => h (List.mem_cons_of_mem c he)
    simp [splitNLAux, hc2, ih _ hrest]

theorem splitLines_joinNL (l : List String) (hne : l ≠ [])
    (h : ∀ s ∈ l, ('\n' : Char) ∉ s.data) :
    splitLines (joinNL l) = l := by
  induction l with
  | nil => exact absurd rfl hne
  | cons s l ih =>
    cases l with
    | nil =>
      have hs : ('\n' : Char) ∉ s.data := h s (by simp)
      simp [splitLines, joinNL, splitNLAux_no_newline _ _ hs]
    | cons t l2 =>
      have hs : ('\n' : Char) ∉ s.data := h s (by simp)
      have hdata : (joinNL (s :: t :: l2)).data =
          s.data ++ '\n' :: (joinNL (t :: l2)).data := by
        show (s ++ "\n" ++ joinNL (t :: l2)).data = _
        simp [String.data_append]
      have hrec : splitLines (joinNL (t :: l2)) = t :: l2 :=
        ih (by simp) (fun x hx => h x (List.mem_cons_of_mem s hx))
      calc splitLines (joinNL (s :: t :: l2))
          = splitNLAux [] (s.data ++ '\n' :: (joinNL (t :: l2)).data) := by
            rw [splitLines, hdata]
        _ = String.mk s.data :: splitNLAux [] (joinNL (t :: l2)).data := by
            simpa using splitNLAux_break s.data (joinNL (t :: l2)).data [] hs
        _ = s :: (t :: l2) := by rw [show String.mk s.data = s from rfl]
                                 exact congrArg _ hrec

theorem split_qa_all_questions (l : List String)
    (h : ∀ s ∈ l, isQuestion s = true) :
    split_qa l = (joinNL l, "") := by
  have h1 : l.filter isQuestion = l := List.filter_eq_self.mpr h
  have h2 : (l.filter fun s => !isQuestion s) = [] := by
    rw [List.filter_eq_nil_iff]
    intro a ha
    simp [h a ha]
  simp [split_qa, splitQAloop_eq_filter, h1, h2, joinNL]

theorem split_qa_all_answers (l : List String)
    (h : ∀ s ∈ l, isQuestion s = false) :
    split_qa l = ("", joinNL l) := by
  have h1 : l.filter isQuestion = [] := by
    rw [List.filter_eq_nil_iff]
    intro a ha
    simp [h a ha]
  have h2 : (l.filter fun s => !isQuestion s) = l :=
    List.filter_eq_self.mpr (fun a ha => by simp [h a ha])
  simp [split_qa, splitQAloop_eq_filter, h1, h2, joinNL]

/-- C9 is refuted as stated: when a line contains an embedded newline, the
newline-joined questions text does not split back into the original lines,
and re-classification is not stable.  Here the single input line `"a\nb?"` is
a question (it ends with `?`), but splitting the questions text on newlines
yields `["a", "b?"]`, of which `"a"` classifies as an answer. -/
theorem C9_counterexample :
    (split_qa ["a\nb?"]).1 = "a\nb?" ∧
    split_qa (splitLines (split_qa ["a\nb?"]).1) ≠
      ((split_qa ["a\nb?"]).1, "") := by
  constructor
  · rfl
  · decide

/-- C9 amended: for every input line sequence whose lines contain no newline
character (as is the case for lines produced by the document extractor),
re-classification is stable: splitting the questions output on newlines and
re-classifying returns the same questions text with no answers, and likewise
splitting the answers output returns no questions and the same answers
text. -/
theorem C9_reclassification_stable (lines : List String)
    (h : ∀ l ∈ lines, ('\n' : Char) ∉ l.data) :
    split_qa (splitLines (split_qa lines).1) = ((split_qa lines).1, "") ∧
    split_qa (splitLines (split_qa lines).2) = ("", (split_qa lines).2) := by
  have hq1 : (split_qa lines).1 = joinNL (lines.filter isQuestion) := by
    simp [split_qa, splitQAloop_eq_filter]
  have hq2 : (split_qa lines).2 =
      joinNL (lines.filter fun l => !isQuestion l) := by
    simp [split_qa, splitQAloop_eq_filter]
  constructor
  · rw [hq1]
    rcases hqe : lines.filter isQuestion with _ | ⟨x, xs⟩
    · decide
    · rw [← hqe]
      have hnn : ∀ s ∈ lines.filter isQuestion, ('\n' : Char) ∉ s.data :=
        fun s hs => h s (List.mem_of_mem_filter hs)
      rw [splitLines_joinNL _ (by simp [hqe]) hnn]
      exact split_qa_all_questions _ (fun s hs => List.of_mem_filter hs)
  · rw [hq2]
    rcases hae : lines.filter (fun l => !isQuestion l) with _ | ⟨x, xs⟩
    · decide
    · rw [← hae]
      have hnn : ∀ s ∈ lines.filter (fun l => !isQuestion l),
          ('\n' : Char) ∉ s.data :=
        fun s hs => h s (List.mem_of_mem_filter hs)
      rw [splitLines_joinNL _ (by simp [hae]) hnn]
      refine split_qa_all_answers _ (fun s hs => ?_)
      have := List.of_mem_filter hs
      simpa using this

theorem C9_reclassification_stable_witness :
    split_qa (splitLines (split_qa ["Is it?", "Yes."]).1) =
      ((split_qa ["Is it?", "Yes."]).1, "") ∧
    split_qa (splitLines (split_qa ["Is it?", "Yes."]).2) =
      ("", (split_qa ["Is it?", "Yes."]).2) :=
  C9_reclassification_stable ["Is it?", "Yes."] (by decide)
